import Mathlib

/-!
Shallow embedding of the carpool-planner matching engine
(src/server/src/routes/matches.ts, served at POST /api/matches/compute)
and proofs of the specification claims about it.

JavaScript numbers are modelled as real numbers; the NaN value that JS
arithmetic can produce on unparseable time strings is modelled by `Option`
(`none` = NaN).  Strings are Lean strings, processed through their
character lists.
-/

namespace Carpool

open Real Classical

/-- Model of the JavaScript `Number(string)` conversion, restricted to the
string shapes this code path can receive: the empty string converts to `0`,
a string of decimal digits converts to its value, and every other string
converts to NaN (`none`).  (Signs, fractions, exponents and whitespace do
not occur in the time strings handled by the engine and are not modelled.) -/
def jsNumber (cs : List Char) : Option ℕ :=
  if cs = [] then some 0
  else if cs.all (fun c => c.isDigit) then
    some (cs.foldl (fun n c => 10 * n + (c.toNat - 48)) 0)
  else none

/-- Model of the JavaScript `split` on the character `:` as used by
`timeToMinutes`: splits a character list into the chunks between colons
(`""` gives `[""]`, `"a:"` gives `["a", ""]`, exactly as in JS). -/
def splitOnColon (cs : List Char) : List (List Char) :=
  match cs with
  | [] => [[]]
  | c :: rest =>
    if c = ':' then [] :: splitOnColon rest
    else
      match splitOnColon rest with
      | [] => [[c]]
      | p :: ps => (c :: p) :: ps

/-- Embedding of `timeToMinutes` (matches.ts line 86):
`const [h, m] = t.split(':').map(Number); return h * 60 + m;`.
When the split yields fewer than two parts, `m` is `undefined` and the JS
result is NaN (`none`); when either part fails to convert, the result is
likewise NaN.  Extra parts after the second are ignored by the
destructuring, as in JS. -/
def timeToMinutes (t : String) : Option ℤ :=
  match splitOnColon t.data with
  | [] => none
  | [_] => none
  | h :: m :: _ =>
    match jsNumber h, jsNumber m with
    | some hv, some mv => some ((hv : ℤ) * 60 + (mv : ℤ))
    | _, _ => none

/-- NaN-propagating `Math.max` on the minute values. -/
def jsMaxO (a b : Option ℤ) : Option ℤ :=
  match a, b with
  | some x, some y => some (max x y)
  | _, _ => none

/-- NaN-propagating `Math.min` on the minute values. -/
def jsMinO (a b : Option ℤ) : Option ℤ :=
  match a, b with
  | some x, some y => some (min x y)
  | _, _ => none

/-- NaN-propagating subtraction on the minute values. -/
def jsSubO (a b : Option ℤ) : Option ℤ :=
  match a, b with
  | some x, some y => some (x - y)
  | _, _ => none

/-- Embedding of `computeOverlap` (matches.ts lines 92-104).  Returns the
pair (overlapMinutes, commonDays).  `commonDays` is
`days1.filter(d => days2.includes(d))`; an empty intersection
short-circuits to `(0, [])` before any time parsing.  Otherwise
`overlapMinutes = Math.max(0, end - start)` with
`start = Math.max(t(e1), t(e2))` and `end = Math.min(t(l1), t(l2))`. -/
def computeOverlap (earliest1 latest1 : String) (days1 : List ℕ)
    (earliest2 latest2 : String) (days2 : List ℕ) : Option ℤ × List ℕ :=
  let commonDays := days1.filter (fun d => days2.contains d)
  if commonDays = [] then (some 0, [])
  else
    let start := jsMaxO (timeToMinutes earliest1) (timeToMinutes earliest2)
    let stop := jsMinO (timeToMinutes latest1) (timeToMinutes latest2)
    (jsMaxO (some 0) (jsSubO stop start), commonDays)

/-- Embedding of `rolesCompatible` (matches.ts lines 107-110). -/
def rolesCompatible (role1 role2 : String) : Bool :=
  if role1 = "RIDER" ∧ role2 = "RIDER" then false else true

/-- The time-format test used by the preference store before any time
string reaches the matching engine (routes/preferences.ts:
`const timeRe = /^\d{2}:\d{2}$/`). -/
def matchesTimeRe (s : String) : Bool :=
  match s.data with
  | [c1, c2, c3, c4, c5] =>
    c1.isDigit && c2.isDigit && (c3 == ':') && c4.isDigit && c5.isDigit
  | _ => false

/-- The character for the decimal digit `d`. -/
def dchar (d : ℕ) : Char := Char.ofNat (48 + d)

/-- Renders hours and minutes as a two-digit `HH:MM` string
(used only to quantify over well-formed inputs in the theorems). -/
def fmtHHMM (h m : ℕ) : String :=
  ⟨[dchar (h / 10), dchar (h % 10), ':', dchar (m / 10), dchar (m % 10)]⟩

/-- Model of JavaScript `Math.atan2(y, x)`.  The engine only ever calls it
with non-negative arguments (square roots), but the definition covers all
quadrants as `Math.atan2` does. -/
noncomputable def atan2 (y x : ℝ) : ℝ :=
  if 0 < x then arctan (y / x)
  else if x < 0 then
    (if 0 ≤ y then arctan (y / x) + π else arctan (y / x) - π)
  else if 0 < y then π / 2
  else if y < 0 then -(π / 2)
  else 0

/-- The intermediate value `a` of `haversine` (matches.ts lines 77-80):
`sin(dLat/2)^2 + cos(lat1 rad) * cos(lat2 rad) * sin(dLng/2)^2`. -/
noncomputable def havA (lat1 lng1 lat2 lng2 : ℝ) : ℝ :=
  sin ((lat2 - lat1) * π / 180 / 2) * sin ((lat2 - lat1) * π / 180 / 2) +
    cos (lat1 * π / 180) * cos (lat2 * π / 180) *
      sin ((lng2 - lng1) * π / 180 / 2) * sin ((lng2 - lng1) * π / 180 / 2)

/-- Embedding of `haversine` (matches.ts lines 73-83): Earth radius 3959
miles, `c = 2 * atan2(sqrt(a), sqrt(1 - a))`, result `R * c`. -/
noncomputable def haversine (lat1 lng1 lat2 lng2 : ℝ) : ℝ :=
  3959 * (2 * atan2 (Real.sqrt (havA lat1 lng1 lat2 lng2))
    (Real.sqrt (1 - havA lat1 lng1 lat2 lng2)))

/-- The dot product of the two unit vectors on the sphere determined by the
latitude/longitude pairs (in degrees): the cosine of the central angle. -/
noncomputable def sphereDot (lat1 lng1 lat2 lng2 : ℝ) : ℝ :=
  sin (lat1 * π / 180) * sin (lat2 * π / 180) +
    cos (lat1 * π / 180) * cos (lat2 * π / 180) * cos ((lng2 - lng1) * π / 180)

/-- The angular separation (central angle, in radians) of the two points,
the quantity the specification says the distance grows with. -/
noncomputable def centralAngle (lat1 lng1 lat2 lng2 : ℝ) : ℝ :=
  arccos (sphereDot lat1 lng1 lat2 lng2)

/-- Model of JavaScript `Math.round` (round half toward positive infinity). -/
noncomputable def jsRound (x : ℝ) : ℤ := ⌊x + 1 / 2⌋

/-- `Math.round(x * 10) / 10` — rounding to one decimal for the reported
output values (matches.ts lines 304 and 306). -/
noncomputable def round10 (x : ℝ) : ℝ := ((jsRound (x * 10) : ℝ)) / 10

/-- `round10` lifted over NaN. -/
noncomputable def round10O (x : Option ℝ) : Option ℝ := x.map round10

/-- A commute preference row as read from `commute_preferences`
(direction, role, earliest_time, latest_time, days_of_week). -/
structure Pref where
  direction : String
  role : String
  earliest : String
  latest : String
  days : List ℕ
deriving DecidableEq

/-- The requesting user row: the home coordinates may be NULL. -/
structure CurrentUser where
  homeLat : Option ℝ
  homeLng : Option ℝ

/-- A candidate user row (the query restricts to rows whose home
coordinates are non-NULL, so they are plain reals here). -/
structure Candidate where
  id : ℕ
  displayName : String
  homeLat : ℝ
  homeLng : ℝ

/-- The outside world of the two Distance Matrix calls: each call can
throw (`error`), report a non-OK status (`ok none`), or return a duration
matrix whose entries can be unavailable (`none`, element status not OK;
out-of-range accesses, JS `undefined`, are modelled as `none` too). -/
structure RouteEnv where
  call1 : Except Unit (Option (List (List (Option ℝ))))
  call2 : Except Unit (Option (List (List (Option ℝ))))

/-- The three leg variables of the compute route (matches.ts lines
221-223): `driverToRiderMin`, `driverToWorkMin`, `riderToWorkMin`. -/
abbrev Legs := Option (List (Option ℝ)) × Option ℝ × Option (List (Option ℝ))

/-- Everything the compute route reads from its collaborators: the user
row, the preference rows, the candidate pool, the env-configured
thresholds (defaults 15 and 30), the workplace location, whether a Google
API key is configured, and the behaviour of the two matrix calls. -/
structure ComputeInput where
  userId : ℕ
  currentUser : Option CurrentUser
  myPrefs : List Pref
  otherUsers : List Candidate
  prefsOf : ℕ → List Pref
  detourThreshold : ℝ
  distanceThreshold : ℝ
  workLat : ℝ
  workLng : ℝ
  apiKey : Bool
  env : RouteEnv

/-- One accepted (candidate × myPref × otherPref) combination, before the
id sequence is assigned. -/
structure AccPre where
  partnerId : ℕ
  partnerName : String
  direction : String
  detour : ℝ
  overlap : Option ℤ

/-- A row inserted into `match_results` (raw, unrounded values). -/
structure MatchRow where
  mid : ℕ
  userA : ℕ
  userB : ℕ
  direction : String
  detourMinutes : ℝ
  overlapMinutes : Option ℤ
  rankScore : Option ℝ

/-- An entry of the reported `matches` array (detour and rank rounded to
one decimal, matches.ts lines 300-307). -/
structure Reported where
  mid : ℕ
  partnerName : String
  direction : String
  detourMin : ℝ
  overlapMin : Option ℤ
  rankScore : Option ℝ

/-- The JSON response of the compute route. -/
inductive ComputeResponse where
  | badRequest (error : String)
  | ok (computed : ℕ) (matchList : List Reported)

/-- The observable outcome of one compute run: the HTTP response and the
rows inserted into the match store. -/
structure ComputeOutcome where
  response : ComputeResponse
  inserted : List MatchRow

/-- Weight of the detour term in the rank score (matches.ts line 207). -/
noncomputable def W_DETOUR : ℝ := 1.0

/-- Weight of the overlap term in the rank score (matches.ts line 208). -/
noncomputable def W_OVERLAP : ℝ := 0.5

/-- The truthiness precondition check of the compute route (matches.ts
line 181): `!currentUser?.home_lat || !currentUser?.home_lng` aborts.
Returns the coordinates when the check passes.  (A numeric `0` is falsy in
JS, hence the extra `= 0` disjunct.) -/
noncomputable def homeOf (input : ComputeInput) : Option (ℝ × ℝ) :=
  match input.currentUser with
  | none => none
  | some cu =>
    match cu.homeLat, cu.homeLng with
    | some la, some lo => if la = 0 ∨ lo = 0 then none else some (la, lo)
    | _, _ => none

/-- The haversine pre-filter (matches.ts lines 212-214): keep the
candidates whose straight-line distance from the requester is within
`DISTANCE_THRESHOLD`. -/
noncomputable def keepNear (la lo thr : ℝ) : List Candidate → List Candidate
  | [] => []
  | c :: cs =>
    if haversine la lo c.homeLat c.homeLng ≤ thr then c :: keepNear la lo thr cs
    else keepNear la lo thr cs

/-- `candidatePoints` (matches.ts line 227): the coordinate pairs sent to
the Distance Matrix API. -/
def candidatePoints (cands : List Candidate) : List (ℝ × ℝ) :=
  cands.map (fun c => (c.homeLat, c.homeLng))

/-- The candidate list of a run (empty when the preconditions fail). -/
noncomputable def candidatesOf (input : ComputeInput) : List Candidate :=
  match homeOf input with
  | none => []
  | some (la, lo) => keepNear la lo input.distanceThreshold input.otherUsers

/-- The matrix-fetch block (matches.ts lines 221-249).  Runs only when an
API key is configured and the candidate list is non-empty.  A throw during
call 1 leaves all three variables null and skips call 2; a throw during
call 2 keeps the values call 1 already assigned.  `call1` returning an
empty row list throws on `call1[0].slice` (caught, and call 2 is never
reached).  A non-OK status (`none`) leaves the corresponding variables
null. -/
noncomputable def legsOf (apiKey : Bool) (cands : List Candidate) (env : RouteEnv) : Legs :=
  if apiKey = true ∧ 0 < cands.length then
    match env.call1 with
    | .error _ => (none, none, none)
    | .ok none =>
      match env.call2 with
      | .error _ => (none, none, none)
      | .ok none => (none, none, none)
      | .ok (some m2) => (none, none, some (m2.map (fun r => Option.join (r.get? 0))))
    | .ok (some []) => (none, none, none)
    | .ok (some (row0 :: _)) =>
      let d2r := some (row0.take cands.length)
      let d2w := Option.join (row0.get? cands.length)
      match env.call2 with
      | .error _ => (d2r, d2w, none)
      | .ok none => (d2r, d2w, none)
      | .ok (some m2) => (d2r, d2w, some (m2.map (fun r => Option.join (r.get? 0))))
  else (none, none, none)

/-- The estimated-mode (tier 2) detour formula (matches.ts lines 268-272):
twice the extra haversine mileage of driving via the candidate. -/
noncomputable def estimatedDetour (la lo olat olng wla wlo : ℝ) : ℝ :=
  let directToWork := haversine la lo wla wlo
  let viaOther := haversine la lo olat olng + haversine olat olng wla wlo
  max 0 ((viaOther - directToWork) * 2)

/-- The per-candidate detour (matches.ts lines 260-273): exact mode when
all three legs are available for index `i`, estimated mode otherwise. -/
noncomputable def detourForIdx (la lo wla wlo : ℝ) (legs : Legs) (i : ℕ)
    (c : Candidate) : ℝ :=
  match legs.1, legs.2.1, legs.2.2 with
  | some l1, some dw, some l3 =>
    match Option.join (l1.get? i), Option.join (l3.get? i) with
    | some a, some b => max 0 (a + b - dw)
    | _, _ => estimatedDetour la lo c.homeLat c.homeLng wla wlo
  | _, _, _ => estimatedDetour la lo c.homeLat c.homeLng wla wlo

/-- Exact-mode availability for candidate index `i` (the condition of
matches.ts lines 262-265). -/
def exactLegsAvailable (legs : Legs) (i : ℕ) : Prop :=
  ∃ l1 dw l3 a b, legs = (some l1, some dw, some l3) ∧
    Option.join (l1.get? i) = some a ∧ Option.join (l3.get? i) = some b

/-- The gates of the inner pairing loop (matches.ts lines 279-289): skip
on direction mismatch, role incompatibility, zero overlap or empty common
days; otherwise accept and keep the overlap value. -/
def acceptPair (mp op : Pref) : Option (Option ℤ) :=
  if mp.direction ≠ op.direction then none
  else if rolesCompatible mp.role op.role = false then none
  else
    let r := computeOverlap mp.earliest mp.latest mp.days op.earliest op.latest op.days
    if r.1 = some 0 ∨ r.2 = [] then none
    else some r.1

/-- The rank score (matches.ts line 291):
`detour * W_DETOUR - overlap * W_OVERLAP` (NaN-propagating). -/
noncomputable def rankOf (detour : ℝ) (overlap : Option ℤ) : Option ℝ :=
  overlap.map (fun v : ℤ => detour * W_DETOUR - (v : ℝ) * W_OVERLAP)

/-- The body of the per-candidate loop (matches.ts lines 253-309): the
detour hard gate first, then the preference cross-join. -/
noncomputable def candGroup (myPrefs : List Pref) (prefsOf : ℕ → List Pref) (thr : ℝ)
    (la lo wla wlo : ℝ) (legs : Legs) (i : ℕ) (c : Candidate) : List AccPre :=
  let d := detourForIdx la lo wla wlo legs i c
  if d > thr then []
  else
    myPrefs.flatMap (fun mp =>
      (prefsOf c.id).filterMap (fun op =>
        (acceptPair mp op).map (fun o =>
          AccPre.mk c.id c.displayName mp.direction d o)))

/-- Strict comparison used when inserting into the sorted output: the JS
comparator `a.rank_score - b.rank_score` is negative.  When either score
is NaN the comparator yields NaN, which the sort treats as 0 (equal). -/
def rankLT : Option ℝ → Option ℝ → Prop
  | some x, some y => x < y
  | _, _ => False

/-- Stable insertion of a later element: it passes over every element it
does not compare strictly less than. -/
noncomputable def insertSorted (m : Reported) : List Reported → List Reported
  | [] => [m]
  | n :: ns =>
    if rankLT m.rankScore n.rankScore then m :: n :: ns else n :: insertSorted m ns

/-- Model of `newMatches.sort((a, b) => a.rank_score - b.rank_score)`
(matches.ts line 312): a stable sort by the (already rounded) reported
rank score. -/
noncomputable def sortReported (l : List Reported) : List Reported :=
  l.foldl (fun acc m => insertSorted m acc) []

/-- The accepted (candidate × myPref × otherPref) combinations of a run,
in source order: the outer loop walks the filtered candidates with their
indices (matches.ts line 253), the inner loops cross-join the preference
rows. -/
noncomputable def acceptedOf (input : ComputeInput) : List AccPre :=
  match homeOf input with
  | none => []
  | some (la, lo) =>
    (candidatesOf input).enum.flatMap (fun p =>
      candGroup input.myPrefs input.prefsOf input.detourThreshold la lo
        input.workLat input.workLng
        (legsOf input.apiKey (candidatesOf input) input.env) p.1 p.2)

/-- The rows inserted into `match_results` (matches.ts lines 293-298), one
per accepted combination in acceptance order; the uuid is modelled as the
acceptance sequence number.  All stored values are the raw unrounded
ones. -/
noncomputable def insertedOf (input : ComputeInput) : List MatchRow :=
  (acceptedOf input).enum.map (fun p =>
    MatchRow.mk p.1 input.userId p.2.partnerId p.2.direction p.2.detour
      p.2.overlap (rankOf p.2.detour p.2.overlap))

/-- The entries pushed onto `newMatches` (matches.ts lines 300-307), with
detour and rank rounded to one decimal for reporting. -/
noncomputable def reportedOf (input : ComputeInput) : List Reported :=
  (acceptedOf input).enum.map (fun p =>
    Reported.mk p.1 p.2.partnerName p.2.direction (round10 p.2.detour)
      p.2.overlap (round10O (rankOf p.2.detour p.2.overlap)))

/-- The whole compute route (matches.ts lines 176-314) as a function from
its collaborator inputs to its observable outcome: precondition checks,
then the candidate pipeline, then the response with the sorted reported
list and its length as `computed`. -/
noncomputable def computeMatches (input : ComputeInput) : ComputeOutcome :=
  match homeOf input with
  | none => ⟨.badRequest ("Please set your home address first"), []⟩
  | some _ =>
    if input.myPrefs = [] then
      ⟨.badRequest ("Please set your commute preferences first"), []⟩
    else
      ⟨.ok (sortReported (reportedOf input)).length (sortReported (reportedOf input)),
        insertedOf input⟩

/-- The per-index projection of the three leg variables that the detour of
candidate index `i` reads. -/
def legsProj (legs : Legs) (i : ℕ) :
    Option (Option ℝ) × Option ℝ × Option (Option ℝ) :=
  (legs.1.map (fun l => Option.join (l.get? i)), legs.2.1,
    legs.2.2.map (fun l => Option.join (l.get? i)))

/-- The detour as a function of the per-index leg projection. -/
noncomputable def detourOfProj (la lo wla wlo : ℝ)
    (pr : Option (Option ℝ) × Option ℝ × Option (Option ℝ)) (c : Candidate) : ℝ :=
  match pr.1, pr.2.1, pr.2.2 with
  | some (some a), some dw, some (some b) => max 0 (a + b - dw)
  | _, _, _ => estimatedDetour la lo c.homeLat c.homeLng wla wlo

/-- An environment in which both matrix calls report a non-OK status. -/
def envEmpty : RouteEnv := ⟨.ok none, .ok none⟩

/-- A concrete candidate at the requester location used in the witnesses. -/
noncomputable def candA : Candidate := ⟨1, ("Alice"), 43, -89⟩

/-- A second concrete candidate at the requester location. -/
noncomputable def candB : Candidate := ⟨2, ("Bob"), 43, -89⟩

/-- A concrete morning preference row. -/
def prefT : Pref := ⟨("TO_WORK"), ("EITHER"), ("00:00"), ("00:02"), [0]⟩

/-- A concrete input whose user has no stored home coordinates. -/
noncomputable def inputNoHome : ComputeInput :=
  ⟨100, some ⟨none, none⟩, [], [], fun _ => [], 15, 30, 42, -88, false, envEmpty⟩

/-- Exact legs giving a 190-minute detour. -/
noncomputable def legsGate : Legs := (some [some 100], some 10, some [some 100])

/-- Non-strict counterpart of `rankLT`: the comparator does not order the
pair the other way (NaN compares equal to everything, as the JS sort
coerces a NaN comparator result to 0). -/
def rankLE : Option ℝ → Option ℝ → Prop
  | some x, some y => x ≤ y
  | _, _ => True

/-- The adjacency relation the sorted reported list satisfies: reported
rank scores are ascending (NaN scores compare equal to everything, as the
JS comparator coerces NaN to 0). -/
def rptLE (a b : Reported) : Prop := rankLE a.rankScore b.rankScore

/-- Routing environment of the concrete two-candidate run: call 1 returns
the row [2.24, 2.16, 10] (requester to candidate A, candidate B, work),
call 2 returns 10 minutes for each candidate to work. -/
noncomputable def envC7 : RouteEnv :=
  ⟨.ok (some [[some 2.24, some 2.16, some 10]]), .ok (some [[some 10], [some 10]])⟩

/-- A concrete run with two candidates whose raw rank scores 1.24 and 1.16
round to the same one-decimal value 1.2. -/
noncomputable def inputC7 : ComputeInput :=
  ⟨100, some ⟨some 43, some (-89)⟩, [prefT], [candA, candB], fun _ => [prefT],
    15, 30, 42, -88, true, envC7⟩

/-- The leg variables the matrix block derives from `envC7`. -/
noncomputable def legsC7 : Legs :=
  (some [some 2.24, some 2.16], some 10, some [some 10, some 10])

/-- The first reported entry of the concrete run (rounded values). -/
noncomputable def repA : Reported := ⟨0, ("Alice"), ("TO_WORK"), 2.2, some 2, some 1.2⟩

/-- The second reported entry of the concrete run (rounded values). -/
noncomputable def repB : Reported := ⟨1, ("Bob"), ("TO_WORK"), 2.2, some 2, some 1.2⟩

lemma sin_mul_self_half (x : ℝ) : sin (x / 2) * sin (x / 2) = (1 - cos x) / 2 := by
  have h := Real.cos_two_mul (x / 2)
  rw [(by ring : 2 * (x / 2) = x)] at h
  have h3 := Real.sin_sq_add_cos_sq (x / 2)
  nlinarith

lemma havA_eq_dot (lat1 lng1 lat2 lng2 : ℝ) :
    havA lat1 lng1 lat2 lng2 = (1 - sphereDot lat1 lng1 lat2 lng2) / 2 := by
  unfold havA sphereDot
  rw [sin_mul_self_half, (by ring : ((lng2 - lng1) * π / 180 / 2) = ((lng2 - lng1) * π / 180) / 2)]
  rw [(by ring : cos (lat1 * π / 180) * cos (lat2 * π / 180) *
      sin ((lng2 - lng1) * π / 180 / 2) * sin ((lng2 - lng1) * π / 180 / 2) =
      cos (lat1 * π / 180) * cos (lat2 * π / 180) *
      (sin ((lng2 - lng1) * π / 180 / 2) * sin ((lng2 - lng1) * π / 180 / 2)))]
  rw [sin_mul_self_half]
  have hd : (lat2 - lat1) * π / 180 = lat2 * π / 180 - lat1 * π / 180 := by ring
  rw [hd, Real.cos_sub]
  ring

lemma sphereDot_le_one (lat1 lng1 lat2 lng2 : ℝ) :
    sphereDot lat1 lng1 lat2 lng2 ≤ 1 := by
  unfold sphereDot
  set s1 := sin (lat1 * π / 180)
  set s2 := sin (lat2 * π / 180)
  set c1 := cos (lat1 * π / 180)
  set c2 := cos (lat2 * π / 180)
  have h1 : s1 ^ 2 + c1 ^ 2 = 1 := Real.sin_sq_add_cos_sq _
  have h2 : s2 ^ 2 + c2 ^ 2 = 1 := Real.sin_sq_add_cos_sq _
  have ht1 : cos ((lng2 - lng1) * π / 180) ≤ 1 := Real.cos_le_one _
  have ht2 : -1 ≤ cos ((lng2 - lng1) * π / 180) := Real.neg_one_le_cos _
  rcases le_or_lt 0 (c1 * c2) with hc | hc
  · have : c1 * c2 * cos ((lng2 - lng1) * π / 180) ≤ c1 * c2 := by
      nlinarith
    nlinarith [sq_nonneg (s1 - s2), sq_nonneg (c1 - c2)]
  · have : c1 * c2 * cos ((lng2 - lng1) * π / 180) ≤ -(c1 * c2) := by
      nlinarith
    nlinarith [sq_nonneg (s1 - s2), sq_nonneg (c1 + c2)]

lemma neg_one_le_sphereDot (lat1 lng1 lat2 lng2 : ℝ) :
    -1 ≤ sphereDot lat1 lng1 lat2 lng2 := by
  unfold sphereDot
  set s1 := sin (lat1 * π / 180)
  set s2 := sin (lat2 * π / 180)
  set c1 := cos (lat1 * π / 180)
  set c2 := cos (lat2 * π / 180)
  have h1 : s1 ^ 2 + c1 ^ 2 = 1 := Real.sin_sq_add_cos_sq _
  have h2 : s2 ^ 2 + c2 ^ 2 = 1 := Real.sin_sq_add_cos_sq _
  have ht1 : cos ((lng2 - lng1) * π / 180) ≤ 1 := Real.cos_le_one _
  have ht2 : -1 ≤ cos ((lng2 - lng1) * π / 180) := Real.neg_one_le_cos _
  rcases le_or_lt 0 (c1 * c2) with hc | hc
  · have : -(c1 * c2) ≤ c1 * c2 * cos ((lng2 - lng1) * π / 180) := by
      nlinarith
    nlinarith [sq_nonneg (s1 + s2), sq_nonneg (c1 - c2)]
  · have : c1 * c2 ≤ c1 * c2 * cos ((lng2 - lng1) * π / 180) := by
      nlinarith
    nlinarith [sq_nonneg (s1 + s2), sq_nonneg (c1 + c2)]

lemma atan2_sin_cos {t : ℝ} (h0 : 0 ≤ t) (h1 : t ≤ π / 2) :
    atan2 (sin t) (cos t) = t := by
  have hcos : 0 ≤ cos t := by
    apply Real.cos_nonneg_of_mem_Icc
    constructor
    · linarith [Real.pi_pos]
    · exact h1
  rcases lt_or_eq_of_le hcos with hpos | hzero
  · have htlt : t < π / 2 := by
      rcases lt_or_eq_of_le h1 with h | h
      · exact h
      · exfalso
        rw [h] at hpos
        simp [Real.cos_pi_div_two] at hpos
    unfold atan2
    rw [if_pos hpos, ← Real.tan_eq_sin_div_cos]
    exact Real.arctan_tan (by linarith [Real.pi_pos]) htlt
  · have ht : t = π / 2 := by
      have := Real.cos_eq_zero_iff.mp hzero.symm
      obtain ⟨k, hk⟩ := this
      have hπ := Real.pi_pos
      have hk0 : k = 0 := by
        by_contra hne
        rcases lt_or_gt_of_ne hne with hlt | hgt
        · have hk1 : k ≤ -1 := by omega
          have : (k : ℝ) ≤ -1 := by exact_mod_cast hk1
          nlinarith
        · have hk1 : (1 : ℤ) ≤ k := hgt
          have : (1 : ℝ) ≤ (k : ℝ) := by exact_mod_cast hk1
          nlinarith
      rw [hk0] at hk
      simpa using hk
    subst ht
    unfold atan2
    rw [if_neg (by rw [Real.cos_pi_div_two]; exact lt_irrefl 0),
      if_neg (by rw [Real.cos_pi_div_two]; exact lt_irrefl 0),
      if_pos (by rw [Real.sin_pi_div_two]; exact one_pos)]

/-- The haversine distance is exactly the Earth radius times the central
angle between the two points. -/
lemma haversine_eq_radius_mul_angle (lat1 lng1 lat2 lng2 : ℝ) :
    haversine lat1 lng1 lat2 lng2 = 3959 * centralAngle lat1 lng1 lat2 lng2 := by
  have hle := sphereDot_le_one lat1 lng1 lat2 lng2
  have hge := neg_one_le_sphereDot lat1 lng1 lat2 lng2
  set θ := centralAngle lat1 lng1 lat2 lng2 with hθdef
  have hθ0 : 0 ≤ θ := Real.arccos_nonneg _
  have hθπ : θ ≤ π := Real.arccos_le_pi _
  have hcosθ : cos θ = sphereDot lat1 lng1 lat2 lng2 := Real.cos_arccos hge hle
  have ha : havA lat1 lng1 lat2 lng2 = (1 - cos θ) / 2 := by
    rw [havA_eq_dot, hcosθ]
  have hb : 1 - havA lat1 lng1 lat2 lng2 = (1 + cos θ) / 2 := by
    rw [ha]; ring
  have hsin : Real.sqrt (havA lat1 lng1 lat2 lng2) = sin (θ / 2) := by
    rw [ha, ← Real.sin_half_eq_sqrt hθ0 (by linarith [Real.pi_pos])]
  have hcos : Real.sqrt (1 - havA lat1 lng1 lat2 lng2) = cos (θ / 2) := by
    rw [hb, ← Real.cos_half (by linarith [Real.pi_pos]) hθπ]
  unfold haversine
  rw [hsin, hcos, atan2_sin_cos (by linarith) (by linarith)]
  ring

lemma havA_self (la lo : ℝ) : havA la lo la lo = 0 := by
  unfold havA
  simp

/-- The haversine distance of a point to itself is exactly zero. -/
lemma haversine_self (la lo : ℝ) : haversine la lo la lo = 0 := by
  unfold haversine
  rw [havA_self]
  simp [atan2, Real.arctan_zero]

lemma havA_comm (lat1 lng1 lat2 lng2 : ℝ) :
    havA lat1 lng1 lat2 lng2 = havA lat2 lng2 lat1 lng1 := by
  unfold havA
  rw [(by ring : (lat1 - lat2) * π / 180 / 2 = -((lat2 - lat1) * π / 180 / 2)),
    (by ring : (lng1 - lng2) * π / 180 / 2 = -((lng2 - lng1) * π / 180 / 2))]
  simp only [Real.sin_neg]
  ring

lemma haversine_comm (lat1 lng1 lat2 lng2 : ℝ) :
    haversine lat1 lng1 lat2 lng2 = haversine lat2 lng2 lat1 lng1 := by
  unfold haversine
  rw [havA_comm]

lemma dchar_not_colon (d : ℕ) (hd : d < 10) : ¬ dchar d = ':' := by
  interval_cases d <;> decide

lemma dchar_isDigit (d : ℕ) (hd : d < 10) : (dchar d).isDigit = true := by
  interval_cases d <;> decide

lemma dchar_toNat (d : ℕ) (hd : d < 10) : (dchar d).toNat = 48 + d := by
  interval_cases d <;> decide

lemma jsNumber_two_digits (a b : ℕ) (ha : a < 10) (hb : b < 10) :
    jsNumber [dchar a, dchar b] = some (10 * a + b) := by
  unfold jsNumber
  rw [if_neg (by simp), if_pos (by simp [dchar_isDigit a ha, dchar_isDigit b hb])]
  simp only [List.foldl, dchar_toNat a ha, dchar_toNat b hb]
  congr 1
  omega

lemma splitOnColon_hhmm (a b c d : ℕ) (ha : a < 10) (hb : b < 10)
    (hc : c < 10) (hd : d < 10) :
    splitOnColon [dchar a, dchar b, ':', dchar c, dchar d] =
      [[dchar a, dchar b], [dchar c, dchar d]] := by
  simp [splitOnColon, dchar_not_colon a ha, dchar_not_colon b hb,
    dchar_not_colon c hc, dchar_not_colon d hd]

lemma timeToMinutes_hhmm (h m : ℕ) (hh : h < 24) (hm : m < 60) :
    timeToMinutes (fmtHHMM h m) = some ((h : ℤ) * 60 + (m : ℤ)) := by
  have hfmt : (fmtHHMM h m).data =
      [dchar (h / 10), dchar (h % 10), ':', dchar (m / 10), dchar (m % 10)] := rfl
  unfold timeToMinutes
  rw [hfmt, splitOnColon_hhmm _ _ _ _ (by omega) (by omega) (by omega) (by omega)]
  have e1 := jsNumber_two_digits (h / 10) (h % 10) (by omega) (by omega)
  have e2 := jsNumber_two_digits (m / 10) (m % 10) (by omega) (by omega)
  simp only [e1, e2]
  have e3 : 10 * (h / 10) + h % 10 = h := by omega
  have e4 : 10 * (m / 10) + m % 10 = m := by omega
  rw [e3, e4]

/-- C9: rolesCompatible is false exactly when both roles are RIDER and
true for every other pair of roles, in either argument order (hence for
every other pair drawn from DRIVER, RIDER, EITHER). -/
theorem c9_roles_compatible (role1 role2 : String) :
    rolesCompatible role1 role2 = false ↔ role1 = "RIDER" ∧ role2 = "RIDER" := by
  unfold rolesCompatible
  split
  · next hcond => simp [hcond]
  · next hcond => simp [hcond]

theorem c9_roles_compatible_witness :
    rolesCompatible ("RIDER") ("RIDER") = false ∧
      rolesCompatible ("DRIVER") ("RIDER") ≠ false :=
  ⟨(c9_roles_compatible ("RIDER") ("RIDER")).mpr ⟨rfl, rfl⟩,
    fun hf => absurd ((c9_roles_compatible ("DRIVER") ("RIDER")).mp hf).1 (by decide)⟩

/-- C4: scheduleOverlap returns commonDays equal (as a set) to the
intersection of the two day sets; an empty intersection short-circuits to
zero overlap with empty commonDays; and with parseable times and a
non-empty intersection the overlap is
max(0, min(latestA, latestB) - max(earliestA, earliestB)), so windows
that touch exactly at an endpoint overlap 0 (see the witness). -/
theorem c4_schedule_overlap (e1 l1 : String) (d1 : List ℕ) (e2 l2 : String) (d2 : List ℕ) :
    (∀ d, d ∈ (computeOverlap e1 l1 d1 e2 l2 d2).2 ↔ d ∈ d1 ∧ d ∈ d2)
    ∧ (d1.filter (fun d => d2.contains d) = [] →
        computeOverlap e1 l1 d1 e2 l2 d2 = (some 0, []))
    ∧ (∀ a1 b1 a2 b2 : ℤ, timeToMinutes e1 = some a1 → timeToMinutes l1 = some b1 →
        timeToMinutes e2 = some a2 → timeToMinutes l2 = some b2 →
        d1.filter (fun d => d2.contains d) ≠ [] →
        (computeOverlap e1 l1 d1 e2 l2 d2).1 =
          some (max 0 (min b1 b2 - max a1 a2))) := by
  refine ⟨?_, ?_, ?_⟩
  · intro d
    simp only [computeOverlap]
    split
    · next hnil =>
      simp only [List.not_mem_nil, false_iff]
      rintro ⟨hd1, hd2⟩
      have := List.filter_eq_nil_iff.mp hnil d hd1
      simp [hd2] at this
    · next hnil => simp [List.mem_filter]
  · intro hnil
    simp only [computeOverlap]
    rw [if_pos hnil]
  · intro a1 b1 a2 b2 h1 h2 h3 h4 hne
    simp only [computeOverlap]
    rw [if_neg hne]
    simp [h1, h2, h3, h4, jsMaxO, jsMinO, jsSubO]

theorem c4_schedule_overlap_witness :
    (computeOverlap ("07:00") ("08:00") [0] ("08:00") ("09:00") [0]).1 =
      some (max 0 (min 480 540 - max 420 480)) ∧
    max (0 : ℤ) (min 480 540 - max 420 480) = 0 :=
  ⟨(c4_schedule_overlap ("07:00") ("08:00") [0] ("08:00") ("09:00") [0]).2.2
      420 480 480 540 (by decide) (by decide) (by decide) (by decide) (by decide),
    by decide⟩

/-- C8 counterexample: the string "7:30" does not match the two-digit
hour pattern, yet the parser does not fail on it — it returns 450.  The
parser is total and never produces a FormatError for any input. -/
theorem c8_format_cex :
    matchesTimeRe ("7:30") = false ∧ timeToMinutes ("7:30") = some 450 :=
  ⟨by decide, by decide⟩

/-- C8 amended: timeToMinutes parses every well-formed two-digit HH:MM
24-hour string to h*60+m, but it does not fail on strings outside that
pattern: it is total, parsing leniently where the pieces convert (for
example "7:30" gives 450) and yielding NaN (none) otherwise (for example
"ab"). -/
theorem c8_time_parse (h m : ℕ) (hh : h < 24) (hm : m < 60) :
    timeToMinutes (fmtHHMM h m) = some ((h : ℤ) * 60 + (m : ℤ))
    ∧ timeToMinutes ("7:30") = some 450
    ∧ timeToMinutes ("ab") = none :=
  ⟨timeToMinutes_hhmm h m hh hm, by decide, by decide⟩

theorem c8_time_parse_witness :
    timeToMinutes (fmtHHMM 17 30) = some ((17 : ℤ) * 60 + 30) :=
  (c8_time_parse 17 30 (by norm_num) (by norm_num)).1

/-- C10: the haversine distance of a point with itself is exactly 0; the
distance is symmetric under argument swap exactly (hence within any
floating tolerance); and it increases monotonically with the angular
separation of the points: it equals the Earth radius (3959 miles) times
the central angle, so distances compare exactly as the separations do. -/
theorem c10_haversine_metric :
    (∀ la lo : ℝ, haversine la lo la lo = 0)
    ∧ (∀ lat1 lng1 lat2 lng2 : ℝ,
        haversine lat1 lng1 lat2 lng2 = haversine lat2 lng2 lat1 lng1)
    ∧ (∀ lat1 lng1 lat2 lng2 : ℝ,
        haversine lat1 lng1 lat2 lng2 = 3959 * centralAngle lat1 lng1 lat2 lng2)
    ∧ (∀ a1 a2 a3 a4 b1 b2 b3 b4 : ℝ,
        (centralAngle a1 a2 a3 a4 ≤ centralAngle b1 b2 b3 b4 ↔
          haversine a1 a2 a3 a4 ≤ haversine b1 b2 b3 b4)) := by
  refine ⟨haversine_self, haversine_comm, haversine_eq_radius_mul_angle, ?_⟩
  intro a1 a2 a3 a4 b1 b2 b3 b4
  rw [haversine_eq_radius_mul_angle, haversine_eq_radius_mul_angle]
  exact (mul_le_mul_left (by norm_num : (0 : ℝ) < 3959)).symm

theorem c10_haversine_metric_witness : haversine 43 (-89) 43 (-89) = 0 :=
  c10_haversine_metric.1 43 (-89)

lemma detourForIdx_eq_ofProj (la lo wla wlo : ℝ) (legs : Legs) (i : ℕ) (c : Candidate) :
    detourForIdx la lo wla wlo legs i c = detourOfProj la lo wla wlo (legsProj legs i) c := by
  rcases legs with ⟨l1, dw, l3⟩
  cases l1 with
  | none => cases dw <;> cases l3 <;> simp [detourForIdx, detourOfProj, legsProj]
  | some l1 =>
    cases dw with
    | none => cases l3 <;> simp [detourForIdx, detourOfProj, legsProj]
    | some dw =>
      cases l3 with
      | none => simp [detourForIdx, detourOfProj, legsProj]
      | some l3 =>
        cases hj1 : Option.join (l1.get? i) <;> cases hj3 : Option.join (l3.get? i) <;>
          simp only [detourForIdx, detourOfProj, legsProj, Option.map_some', hj1, hj3]

lemma mem_keepNear (la lo thr : ℝ) (l : List Candidate) (c : Candidate) :
    c ∈ keepNear la lo thr l ↔ c ∈ l ∧ haversine la lo c.homeLat c.homeLng ≤ thr := by
  induction l with
  | nil => simp [keepNear]
  | cons x xs ih =>
    rw [keepNear]
    split
    · next hle =>
      simp only [List.mem_cons, ih]
      constructor
      · rintro (rfl | ⟨hmem, hd⟩)
        · exact ⟨Or.inl rfl, hle⟩
        · exact ⟨Or.inr hmem, hd⟩
      · rintro ⟨rfl | hmem, hd⟩
        · exact Or.inl rfl
        · exact Or.inr ⟨hmem, hd⟩
    · next hgt =>
      rw [ih]
      simp only [List.mem_cons]
      constructor
      · rintro ⟨hmem, hd⟩; exact ⟨Or.inr hmem, hd⟩
      · rintro ⟨rfl | hmem, hd⟩
        · exact absurd hd hgt
        · exact ⟨hmem, hd⟩

lemma mem_candGroup {myPrefs : List Pref} {prefsOf : ℕ → List Pref} {thr la lo wla wlo : ℝ}
    {legs : Legs} {i : ℕ} {c : Candidate} {a : AccPre}
    (h : a ∈ candGroup myPrefs prefsOf thr la lo wla wlo legs i c) :
    a.partnerId = c.id ∧ detourForIdx la lo wla wlo legs i c ≤ thr ∧
      a.detour = detourForIdx la lo wla wlo legs i c := by
  simp only [candGroup] at h
  split at h
  · simp at h
  · next hgt =>
    rw [List.mem_flatMap] at h
    obtain ⟨mp, hmp, h⟩ := h
    rw [List.mem_filterMap] at h
    obtain ⟨op, hop, hacc⟩ := h
    cases hap : acceptPair mp op with
    | none => rw [hap] at hacc; simp at hacc
    | some o =>
      rw [hap, Option.map_some'] at hacc
      cases hacc
      exact ⟨rfl, le_of_not_lt hgt, rfl⟩

/-- C5: a missing user row or missing home coordinates abort the run with
the distinct home-address 400 error and no inserted rows; a present home
location with an empty preference list aborts with the distinct
preferences 400 error and no inserted rows; and a bad-request response is
never the ok shape (so the failures are not silent empty match lists). -/
theorem c5_preconditions (input : ComputeInput) :
    (input.currentUser = none →
      computeMatches input =
        ⟨.badRequest ("Please set your home address first"), []⟩)
    ∧ (∀ cu, input.currentUser = some cu → (cu.homeLat = none ∨ cu.homeLng = none) →
      computeMatches input =
        ⟨.badRequest ("Please set your home address first"), []⟩)
    ∧ (homeOf input ≠ none → input.myPrefs = [] →
      computeMatches input =
        ⟨.badRequest ("Please set your commute preferences first"), []⟩)
    ∧ (∀ s n ms, ComputeResponse.badRequest s ≠ ComputeResponse.ok n ms) := by
  refine ⟨?_, ?_, ?_, ?_⟩
  · intro h
    have hh : homeOf input = none := by unfold homeOf; rw [h]
    unfold computeMatches
    rw [hh]
  · intro cu hcu hnone
    have hh : homeOf input = none := by
      rcases hnone with h1 | h1
      · simp [homeOf, hcu, h1]
      · cases hca : cu.homeLat with
        | none => simp [homeOf, hcu, hca]
        | some la => simp [homeOf, hcu, hca, h1]
    unfold computeMatches
    rw [hh]
  · intro hsome hp
    rcases hne : homeOf input with _ | pair
    · exact absurd hne hsome
    · unfold computeMatches
      rw [hne, if_pos hp]
  · exact fun s n ms h => ComputeResponse.noConfusion h

/-- C2: whenever the exact legs are not available for a candidate (in
particular whenever no API key is configured, since then all three leg
variables are null for every environment — no network data is consulted),
the detour equals
max(0, (dist(requester, cand) + dist(cand, work) - dist(requester, work)) * 2);
and with no API key the whole run does not depend on the matrix
environment at all. -/
theorem c2_estimated_mode (la lo wla wlo : ℝ) (legs : Legs) (i : ℕ) (c : Candidate)
    (h : ¬ exactLegsAvailable legs i) :
    detourForIdx la lo wla wlo legs i c =
      max 0 ((haversine la lo c.homeLat c.homeLng +
        haversine c.homeLat c.homeLng wla wlo - haversine la lo wla wlo) * 2)
    ∧ (∀ (apiKey : Bool) cands env, apiKey = false →
        legsOf apiKey cands env = (none, none, none))
    ∧ (∀ (input : ComputeInput) (env2 : RouteEnv), input.apiKey = false →
        computeMatches { input with env := env2 } = computeMatches input) := by
  refine ⟨?_, ?_, ?_⟩
  · rcases legs with ⟨l1, dw, l3⟩
    cases l1 with
    | none => cases dw <;> cases l3 <;> simp [detourForIdx, estimatedDetour]
    | some l1 =>
      cases dw with
      | none => cases l3 <;> simp [detourForIdx, estimatedDetour]
      | some dw =>
        cases l3 with
        | none => simp [detourForIdx, estimatedDetour]
        | some l3 =>
          cases hj1 : Option.join (l1.get? i) with
          | none => simp only [detourForIdx, hj1, estimatedDetour]
          | some a =>
            cases hj3 : Option.join (l3.get? i) with
            | none => simp only [detourForIdx, hj1, hj3, estimatedDetour]
            | some b => exact absurd ⟨l1, dw, l3, a, b, rfl, hj1, hj3⟩ h
  · intro apiKey cands env hk
    simp [legsOf, hk]
  · intro input env2 hk
    have hacc : acceptedOf { input with env := env2 } = acceptedOf input := by
      simp [acceptedOf, candidatesOf, homeOf, legsOf, hk]
    have hrep : reportedOf { input with env := env2 } = reportedOf input := by
      unfold reportedOf
      rw [hacc]
    have hins : insertedOf { input with env := env2 } = insertedOf input := by
      unfold insertedOf
      rw [hacc]
    unfold computeMatches
    rw [show homeOf { input with env := env2 } = homeOf input from rfl, hrep, hins]

/-- C3: with all three durations available for candidate index i the
detour is max(0, driverToCandidate + candidateToDest - driverToDest); the
detour of an index depends only on the leg data visible at that index, so
one candidate with a missing leg does not affect the others; and no
routing failure is surfaced: whenever the preconditions pass, the
response is the ok shape for every environment, including throwing or
failing matrix calls. -/
theorem c3_exact_mode_per_candidate :
    (∀ (la lo wla wlo : ℝ) (l1 : List (Option ℝ)) (dw : ℝ) (l3 : List (Option ℝ))
        (i : ℕ) (c : Candidate) (a b : ℝ),
      Option.join (l1.get? i) = some a → Option.join (l3.get? i) = some b →
      detourForIdx la lo wla wlo (some l1, some dw, some l3) i c = max 0 (a + b - dw))
    ∧ (∀ (la lo wla wlo : ℝ) (legs legs2 : Legs) (i : ℕ) (c : Candidate),
        legsProj legs i = legsProj legs2 i →
        detourForIdx la lo wla wlo legs i c = detourForIdx la lo wla wlo legs2 i c)
    ∧ (∀ (input : ComputeInput) (la lo : ℝ), homeOf input = some (la, lo) →
        input.myPrefs ≠ [] →
        ∃ n ms, (computeMatches input).response = ComputeResponse.ok n ms) := by
  refine ⟨?_, ?_, ?_⟩
  · intro la lo wla wlo l1 dw l3 i c a b hj1 hj3
    simp only [detourForIdx, hj1, hj3]
  · intro la lo wla wlo legs legs2 i c hproj
    rw [detourForIdx_eq_ofProj, detourForIdx_eq_ofProj, hproj]
  · intro input la lo hh hp
    unfold computeMatches
    rw [hh, if_neg hp]
    exact ⟨_, _, rfl⟩

/-- C6: the prefilter keeps exactly the candidates whose haversine
distance from the requester is within the threshold; the candidate list
does not depend on whether a routing key or environment is configured;
and no matrix request point is built for a user beyond the threshold. -/
theorem c6_prefilter :
    (∀ (la lo thr : ℝ) (l : List Candidate) (c : Candidate),
      c ∈ keepNear la lo thr l ↔ c ∈ l ∧ haversine la lo c.homeLat c.homeLng ≤ thr)
    ∧ (∀ (input : ComputeInput) (b : Bool) (e : RouteEnv),
        candidatesOf { input with apiKey := b, env := e } = candidatesOf input)
    ∧ (∀ (input : ComputeInput) (la lo : ℝ), homeOf input = some (la, lo) →
        ∀ o ∈ input.otherUsers,
        haversine la lo o.homeLat o.homeLng > input.distanceThreshold →
        (o.homeLat, o.homeLng) ∉ candidatePoints (candidatesOf input)) := by
  refine ⟨mem_keepNear, ?_, ?_⟩
  · intro input b e
    rfl
  · intro input la lo hh o ho hgt hmem
    unfold candidatePoints at hmem
    rw [List.mem_map] at hmem
    obtain ⟨c, hc, hcoord⟩ := hmem
    unfold candidatesOf at hc
    rw [hh] at hc
    have hkn := (mem_keepNear la lo input.distanceThreshold input.otherUsers c).mp hc
    have h1 : c.homeLat = o.homeLat := congrArg Prod.fst hcoord
    have h2 : c.homeLng = o.homeLng := congrArg Prod.snd hcoord
    rw [h1, h2] at hkn
    linarith [hkn.2]

/-- C1: a candidate whose computed detour exceeds the threshold is gated
out before the preference cross-join — its per-candidate block is empty,
so it contributes no MatchResult and no rank score — and consequently
every inserted row of a run originates from a candidate whose computed
detour is within the threshold. -/
theorem c1_detour_hard_gate :
    (∀ (myPrefs : List Pref) (prefsOf : ℕ → List Pref) (thr la lo wla wlo : ℝ)
        (legs : Legs) (i : ℕ) (c : Candidate),
      detourForIdx la lo wla wlo legs i c > thr →
      candGroup myPrefs prefsOf thr la lo wla wlo legs i c = [])
    ∧ (∀ (input : ComputeInput) (la lo : ℝ), homeOf input = some (la, lo) →
        ∀ row ∈ (computeMatches input).inserted,
        ∃ p ∈ (candidatesOf input).enum,
          row.userB = p.2.id ∧
          detourForIdx la lo input.workLat input.workLng
            (legsOf input.apiKey (candidatesOf input) input.env) p.1 p.2 ≤
            input.detourThreshold) := by
  constructor
  · intro myPrefs prefsOf thr la lo wla wlo legs i c hgt
    simp only [candGroup]
    rw [if_pos hgt]
  · intro input la lo hh row hrow
    unfold computeMatches at hrow
    rw [hh] at hrow
    by_cases hp : input.myPrefs = []
    · rw [if_pos hp] at hrow
      simp at hrow
    · rw [if_neg hp] at hrow
      unfold insertedOf at hrow
      rw [List.mem_map] at hrow
      obtain ⟨⟨n, a⟩, hna, hrowe⟩ := hrow
      have ha : a ∈ acceptedOf input :=
        List.getElem?_mem (List.mk_mem_enum_iff_getElem?.mp hna)
      unfold acceptedOf at ha
      rw [hh] at ha
      rw [List.mem_flatMap] at ha
      obtain ⟨p, hp2, hpg⟩ := ha
      obtain ⟨hpid, hple, hpdet⟩ := mem_candGroup hpg
      refine ⟨p, hp2, ?_, hple⟩
      rw [← hrowe]
      exact hpid

theorem c5_preconditions_witness :
    computeMatches inputNoHome =
      ⟨.badRequest ("Please set your home address first"), []⟩ :=
  (c5_preconditions inputNoHome).2.1 ⟨none, none⟩ rfl (Or.inl rfl)

theorem c2_estimated_mode_witness :
    legsOf false [] envEmpty = (none, none, none) :=
  (c2_estimated_mode 0 0 0 0 (none, none, none) 0 candA (by
      rintro ⟨l1, dw, l3, a, b, heq, -, -⟩
      simp at heq)).2.1 false [] envEmpty rfl

theorem c3_exact_mode_per_candidate_witness :
    detourForIdx 0 0 0 0 (some [some 5], some 10, some [some 4]) 0 candA =
      max 0 (5 + 4 - 10) :=
  c3_exact_mode_per_candidate.1 0 0 0 0 [some 5] 10 [some 4] 0 candA 5 4 rfl rfl

theorem c6_prefilter_witness :
    candA ∈ keepNear 43 (-89) 30 [candA] ↔
      candA ∈ [candA] ∧ haversine 43 (-89) candA.homeLat candA.homeLng ≤ 30 :=
  c6_prefilter.1 43 (-89) 30 [candA] candA

theorem c1_detour_hard_gate_witness :
    candGroup [] (fun _ => []) 15 43 (-89) 42 (-88) legsGate 0 candA = [] :=
  c1_detour_hard_gate.1 [] (fun _ => []) 15 43 (-89) 42 (-88) legsGate 0 candA (by
    have h : detourForIdx 43 (-89) 42 (-88) legsGate 0 candA =
        max 0 (100 + 100 - 10 : ℝ) := rfl
    rw [h, max_eq_right (by norm_num : (0 : ℝ) ≤ 100 + 100 - 10)]
    norm_num)

lemma rankLE_of_lt {a b : Option ℝ} (h : rankLT a b) : rankLE a b := by
  cases a with
  | none => cases b <;> trivial
  | some x =>
    cases b with
    | none => trivial
    | some y => exact le_of_lt h

lemma rankLE_of_not_lt {a b : Option ℝ} (h : ¬ rankLT a b) : rankLE b a := by
  cases a with
  | none => cases b <;> trivial
  | some x =>
    cases b with
    | none => trivial
    | some y => exact le_of_not_lt h

lemma chain'_insertSorted (m : Reported) :
    ∀ l : List Reported, List.Chain' rptLE l → List.Chain' rptLE (insertSorted m l)
  | [], _ => by simp [insertSorted]
  | n :: ns, h => by
    rw [insertSorted]
    split
    · next hlt => exact List.chain'_cons.mpr ⟨rankLE_of_lt hlt, h⟩
    · next hnlt =>
      rw [List.chain'_cons']
      refine ⟨?_, chain'_insertSorted m ns h.tail⟩
      intro b hb
      cases ns with
      | nil =>
        simp [insertSorted] at hb
        subst hb
        exact rankLE_of_not_lt hnlt
      | cons k ks =>
        rw [insertSorted] at hb
        split at hb
        · simp at hb
          subst hb
          exact rankLE_of_not_lt hnlt
        · simp at hb
          subst hb
          exact (List.chain'_cons.mp h).1

lemma insertSorted_perm (m : Reported) :
    ∀ l : List Reported, (insertSorted m l).Perm (m :: l)
  | [] => by simp [insertSorted]
  | n :: ns => by
    rw [insertSorted]
    split
    · exact List.Perm.refl _
    · exact ((insertSorted_perm m ns).cons n).trans (List.Perm.swap m n ns)

lemma foldl_insert_perm :
    ∀ (l acc : List Reported),
      (l.foldl (fun acc m => insertSorted m acc) acc).Perm (acc ++ l)
  | [], acc => by simp
  | m :: ls, acc => by
    rw [List.foldl_cons]
    refine (foldl_insert_perm ls (insertSorted m acc)).trans ?_
    refine ((insertSorted_perm m acc).append_right ls).trans ?_
    exact List.perm_middle.symm

lemma sortReported_perm (l : List Reported) : (sortReported l).Perm l := by
  have h := foldl_insert_perm l []
  simpa [sortReported] using h

lemma chain'_sortReported (l : List Reported) :
    List.Chain' rptLE (sortReported l) := by
  suffices h : ∀ (l acc : List Reported), List.Chain' rptLE acc →
      List.Chain' rptLE (l.foldl (fun acc m => insertSorted m acc) acc) by
    exact h l [] (by simp)
  intro l
  induction l with
  | nil => intro acc hacc; simpa using hacc
  | cons m ls ih =>
    intro acc hacc
    rw [List.foldl_cons]
    exact ih _ (chain'_insertSorted m acc hacc)

/-- C7 amended: a successful run responds with the full reported list —
sorted ascending by the reported (rounded to one decimal) rank score, a
permutation of the generated entries — and a count equal to that list
length.  The rows stored in the match store carry the raw unrounded
detour and rank (the rank recomputed from the stored raw fields), and
each reported entry is the rounding of its stored row; but the sort
comparison uses the rounded reported values, not the raw stored ones. -/
theorem c7_sorted_rounded_response (input : ComputeInput) (la lo : ℝ)
    (hhome : homeOf input = some (la, lo)) (hp : input.myPrefs ≠ []) :
    (computeMatches input).response =
      ComputeResponse.ok (sortReported (reportedOf input)).length
        (sortReported (reportedOf input))
    ∧ (computeMatches input).inserted = insertedOf input
    ∧ List.Chain' rptLE (sortReported (reportedOf input))
    ∧ (sortReported (reportedOf input)).Perm (reportedOf input)
    ∧ (∀ row ∈ insertedOf input,
        row.rankScore = rankOf row.detourMinutes row.overlapMinutes)
    ∧ (∀ r ∈ reportedOf input, ∃ row ∈ insertedOf input, row.mid = r.mid ∧
        r.detourMin = round10 row.detourMinutes ∧
        r.rankScore = round10O row.rankScore) := by
  refine ⟨?_, ?_, chain'_sortReported _, sortReported_perm _, ?_, ?_⟩
  · unfold computeMatches
    rw [hhome, if_neg hp]
  · unfold computeMatches
    rw [hhome, if_neg hp]
  · intro row hrow
    unfold insertedOf at hrow
    rw [List.mem_map] at hrow
    obtain ⟨⟨n, a⟩, hna, hrowe⟩ := hrow
    subst hrowe
    rfl
  · intro r hr
    unfold reportedOf at hr
    rw [List.mem_map] at hr
    obtain ⟨⟨n, a⟩, hna, hre⟩ := hr
    subst hre
    refine ⟨MatchRow.mk n input.userId a.partnerId a.direction a.detour a.overlap
      (rankOf a.detour a.overlap), ?_, rfl, rfl, rfl⟩
    unfold insertedOf
    rw [List.mem_map]
    exact ⟨(n, a), hna, rfl⟩

lemma homeOf_inputC7 : homeOf inputC7 = some (43, -89) := by
  simp only [homeOf, inputC7]
  rw [if_neg (by norm_num)]

lemma candidatesOf_inputC7 : candidatesOf inputC7 = [candA, candB] := by
  unfold candidatesOf
  rw [homeOf_inputC7]
  show keepNear 43 (-89) (30 : ℝ) [candA, candB] = [candA, candB]
  rw [keepNear, if_pos (by norm_num [candA, haversine_self]), keepNear,
    if_pos (by norm_num [candB, haversine_self]), keepNear]

lemma legsOf_inputC7 : legsOf true [candA, candB] envC7 = legsC7 := by
  unfold legsOf envC7 legsC7
  rw [if_pos ⟨rfl, by norm_num⟩]
  simp

lemma detourA_inputC7 : detourForIdx 43 (-89) 42 (-88) legsC7 0 candA = 2.24 := by
  have h : detourForIdx 43 (-89) 42 (-88) legsC7 0 candA =
      max 0 (2.24 + 10 - 10 : ℝ) := rfl
  rw [h, (by norm_num : (2.24 : ℝ) + 10 - 10 = 2.24),
    max_eq_right (by norm_num : (0 : ℝ) ≤ 2.24)]

lemma detourB_inputC7 : detourForIdx 43 (-89) 42 (-88) legsC7 1 candB = 2.16 := by
  have h : detourForIdx 43 (-89) 42 (-88) legsC7 1 candB =
      max 0 (2.16 + 10 - 10 : ℝ) := rfl
  rw [h, (by norm_num : (2.16 : ℝ) + 10 - 10 = 2.16),
    max_eq_right (by norm_num : (0 : ℝ) ≤ 2.16)]

lemma acceptPair_prefT : acceptPair prefT prefT = some (some 2) := by decide

lemma candGroupA_inputC7 :
    candGroup [prefT] (fun _ => [prefT]) 15 43 (-89) 42 (-88) legsC7 0 candA =
      [AccPre.mk 1 ("Alice") ("TO_WORK") 2.24 (some 2)] := by
  simp only [candGroup]
  rw [if_neg (by rw [detourA_inputC7]; norm_num)]
  rw [List.flatMap_cons, List.flatMap_nil, List.append_nil, List.filterMap_cons,
    acceptPair_prefT, Option.map_some', List.filterMap_nil, detourA_inputC7]
  rfl

lemma candGroupB_inputC7 :
    candGroup [prefT] (fun _ => [prefT]) 15 43 (-89) 42 (-88) legsC7 1 candB =
      [AccPre.mk 2 ("Bob") ("TO_WORK") 2.16 (some 2)] := by
  simp only [candGroup]
  rw [if_neg (by rw [detourB_inputC7]; norm_num)]
  rw [List.flatMap_cons, List.flatMap_nil, List.append_nil, List.filterMap_cons,
    acceptPair_prefT, Option.map_some', List.filterMap_nil, detourB_inputC7]
  rfl

lemma acceptedOf_inputC7 :
    acceptedOf inputC7 =
      [AccPre.mk 1 ("Alice") ("TO_WORK") 2.24 (some 2),
        AccPre.mk 2 ("Bob") ("TO_WORK") 2.16 (some 2)] := by
  unfold acceptedOf
  rw [homeOf_inputC7, candidatesOf_inputC7]
  rw [show inputC7.myPrefs = [prefT] from rfl,
    show inputC7.prefsOf = (fun _ => [prefT]) from rfl,
    show inputC7.detourThreshold = (15 : ℝ) from rfl,
    show inputC7.workLat = (42 : ℝ) from rfl,
    show inputC7.workLng = (-88 : ℝ) from rfl,
    show inputC7.apiKey = true from rfl,
    show inputC7.env = envC7 from rfl,
    legsOf_inputC7]
  simp [List.enum, List.enumFrom, candGroupA_inputC7, candGroupB_inputC7]

lemma round10_eval (x : ℝ) (z : ℤ) (h1 : (z : ℝ) ≤ x * 10 + 1 / 2)
    (h2 : x * 10 + 1 / 2 < z + 1) : round10 x = (z : ℝ) / 10 := by
  unfold round10 jsRound
  rw [Int.floor_eq_iff.mpr ⟨h1, h2⟩]

lemma round10_224 : round10 (2.24 : ℝ) = 2.2 := by
  rw [round10_eval (2.24 : ℝ) 22 (by norm_num) (by norm_num)]
  norm_num

lemma round10_216 : round10 (2.16 : ℝ) = 2.2 := by
  rw [round10_eval (2.16 : ℝ) 22 (by norm_num) (by norm_num)]
  norm_num

lemma round10_124 : round10 (1.24 : ℝ) = 1.2 := by
  rw [round10_eval (1.24 : ℝ) 12 (by norm_num) (by norm_num)]
  norm_num

lemma round10_116 : round10 (1.16 : ℝ) = 1.2 := by
  rw [round10_eval (1.16 : ℝ) 12 (by norm_num) (by norm_num)]
  norm_num

lemma rankOf_224 : rankOf 2.24 (some 2) = some (1.24 : ℝ) := by
  unfold rankOf W_DETOUR W_OVERLAP
  rw [Option.map_some']
  norm_num

lemma rankOf_216 : rankOf 2.16 (some 2) = some (1.16 : ℝ) := by
  unfold rankOf W_DETOUR W_OVERLAP
  rw [Option.map_some']
  norm_num

lemma insertedOf_inputC7 :
    insertedOf inputC7 =
      [MatchRow.mk 0 100 1 ("TO_WORK") 2.24 (some 2) (some 1.24),
        MatchRow.mk 1 100 2 ("TO_WORK") 2.16 (some 2) (some 1.16)] := by
  unfold insertedOf
  rw [acceptedOf_inputC7]
  simp only [List.enum, List.enumFrom, List.map_cons, List.map_nil, rankOf_224, rankOf_216,
    show inputC7.userId = 100 from rfl]

lemma reportedOf_inputC7 : reportedOf inputC7 = [repA, repB] := by
  unfold reportedOf
  rw [acceptedOf_inputC7]
  simp only [List.enum, List.enumFrom, List.map_cons, List.map_nil, rankOf_224, rankOf_216,
    round10O, Option.map_some', round10_224, round10_216, round10_124, round10_116,
    repA, repB]

lemma sortReported_C7 : sortReported [repA, repB] = [repA, repB] := by
  unfold sortReported
  simp only [List.foldl_cons, List.foldl_nil]
  rw [show insertSorted repA [] = [repA] from rfl]
  rw [insertSorted, if_neg (by simp [repA, repB, rankLT])]
  rw [show insertSorted repB [] = [repB] from rfl]

/-- C7 counterexample: in the concrete run `inputC7` the two stored rows
have raw rank scores 1.24 (id 0) and 1.16 (id 1), yet the response lists
id 0 before id 1 — because both ranks round to 1.2 and the sort compares
the rounded reported values, the stable sort keeps the insertion order.
Had the comparison used the raw unrounded rank scores, 1.16 would have to
come first, so the response is not sorted ascending by raw rankScore. -/
theorem c7_rounded_sort_cex :
    (insertedOf inputC7).map (fun row => (row.mid, row.rankScore)) =
      [(0, some (1.24 : ℝ)), (1, some (1.16 : ℝ))]
    ∧ (computeMatches inputC7).response = ComputeResponse.ok 2 [repA, repB]
    ∧ repA.mid = 0 ∧ repB.mid = 1
    ∧ ¬ ((1.24 : ℝ) ≤ 1.16) := by
  refine ⟨?_, ?_, rfl, rfl, by norm_num⟩
  · rw [insertedOf_inputC7]
    simp
  · unfold computeMatches
    rw [homeOf_inputC7,
      if_neg (by rw [show inputC7.myPrefs = [prefT] from rfl]; simp),
      reportedOf_inputC7, sortReported_C7]
    rfl

theorem c7_sorted_rounded_response_witness :
    (computeMatches inputC7).inserted = insertedOf inputC7 :=
  (c7_sorted_rounded_response inputC7 43 (-89) homeOf_inputC7
    (by rw [show inputC7.myPrefs = [prefT] from rfl]; simp)).2.1

end Carpool
